import Mathlib

/-!
# httpvcr — verification of the record/replay engine

A shallow embedding of the go-chi/httpvcr HTTP interaction recorder.
Go byte slices and Go strings are both modelled as `List Nat` (byte
values); a `nil` slice is distinguished from a present empty slice by
`Option (List Nat)`.  Fatal `panic` calls in the Go source are modelled
as `Except` errors, per the spec's taxonomy of fatal conditions.
-/

namespace Httpvcr

/-- Go byte strings (both `[]byte` and `string`). -/
abbrev Bytes := List Nat

/-! ## ASCII constants used by the source (string literals as byte lists) -/

/-- ASCII bytes of "Method". -/
def fieldMethod : Bytes := [77, 101, 116, 104, 111, 100]
/-- ASCII bytes of "URL". -/
def fieldURL : Bytes := [85, 82, 76]
/-- ASCII bytes of "Body". -/
def fieldBody : Bytes := [66, 111, 100, 121]

/-! ## Data model (`VCRRequest`, `VCRResponse`, `Episode`) -/

/-- Struct `VCRRequest` from the source: method, URL in string form, body bytes.
Header is intentionally not a field (not captured, not matched).
`Body = none` models a Go `nil` slice (request with no body);
`Body = some []` models a present empty body. -/
structure VCRRequest where
  Method : Bytes
  URL : Bytes
  Body : Option Bytes
deriving DecidableEq, Repr

/-- Struct `VCRResponse` from `response.go`: status text, numeric code, declared
content length, header multi-map, body bytes.  The Go header is a
`map[string][]string`; it is modelled as an association list in the
map's canonical (key-sorted, duplicate-free) form. -/
structure VCRResponse where
  Status : Bytes
  StatusCode : Int
  ContentLength : Int
  Header : List (Bytes × List Bytes)
  Body : Option Bytes
deriving DecidableEq, Repr

/-- One recorded exchange. -/
structure Episode where
  Request : VCRRequest
  Response : VCRResponse
deriving DecidableEq, Repr

/-! ## Live HTTP objects (`net/http` shapes used by the source) -/

/-- The parts of `http.Request` the source touches.  `body = none` models a
`nil` body reader; `some bs` a readable stream whose remaining content is
`bs`. -/
structure HTTPRequest where
  method : Bytes
  url : Bytes
  header : List (Bytes × List Bytes)
  body : Option Bytes
deriving DecidableEq, Repr

/-- The parts of `http.Response` the source touches. -/
structure HTTPResponse where
  status : Bytes
  statusCode : Int
  proto : Bytes
  protoMajor : Nat
  protoMinor : Nat
  header : List (Bytes × List Bytes)
  contentLength : Int
  body : Option Bytes
deriving DecidableEq, Repr

/-- ASCII bytes of "HTTP/1.0". -/
def protoHTTP10 : Bytes := [72, 84, 84, 80, 47, 49, 46, 48]

/-! ## Filter stage: `bytes.Replace(s, old, new, -1)` -/

/-- The scanning core of Go `bytes.Replace` with unlimited count, for a
non-empty pattern: at each position, if `old` is a leading pattern, emit
`new` and skip past the match; otherwise emit one byte and advance.
Replacements are non-overlapping, scanning left to right.  The fuel
argument only bounds the recursion (each step consumes at least one input
byte, so fuel `s.length` is never exhausted); it keeps the definition
structurally recursive, hence evaluable. -/
def replaceScan (old new : Bytes) : Nat → Bytes → Bytes
  | _, [] => []
  | 0, s => s
  | fuel + 1, c :: rest =>
    if old.isPrefixOf (c :: rest) then
      new ++ replaceScan old new fuel ((c :: rest).drop old.length)
    else
      c :: replaceScan old new fuel rest
termination_by structural fuel _ => fuel

/-- Go `bytes.Replace(s, old, new, -1)`.  An empty `old` matches before
every element and at the end (the source never calls it with an empty
pattern; boundaries are modelled per byte). -/
def bytesReplace (s old new : Bytes) : Bytes :=
  if old = [] then new ++ s.flatMap (fun b => b :: new)
  else replaceScan old new s.length s

/-- A filter map entry: plaintext and its replacement.  The Go map is
modelled as an association list; Go map iteration order is unspecified,
here it is the list order. -/
abbrev FilterMap := List (Bytes × Bytes)

/-- Apply every filter-map substitution to body bytes, as the loop in
`newVCRRequest` does. -/
def applyFilters (fm : FilterMap) (body : Bytes) : Bytes :=
  fm.foldl (fun acc p => bytesReplace acc p.1 p.2) body

/-! ## Episode codec -/

/-- Function `newVCRRequest` from the source.  Reads the whole body (when non-nil),
replaces the request's body stream with a fresh reader over the read
bytes, then applies the filter substitutions to a copy for the snapshot.
Returns the snapshot together with the (possibly body-restored) live
request. -/
def newVCRRequest (request : HTTPRequest) (filterMap : FilterMap) :
    VCRRequest × HTTPRequest :=
  match request.body with
  | none =>
    ({ Method := request.method, URL := request.url, Body := none }, request)
  | some bs =>
    let request' := { request with body := some bs }
    ({ Method := request.method, URL := request.url,
       Body := some (applyFilters filterMap bs) }, request')

/-- Function `newVCRResponse` from `response.go`: reads the whole body (when
non-nil) and copies the other fields. -/
def newVCRResponse (response : HTTPResponse) : VCRResponse :=
  { Status := response.status
    StatusCode := response.statusCode
    ContentLength := response.contentLength
    Header := response.header
    Body := response.body }

/-- Method `VCRResponse.httpResponse` from `response.go`: materializes a live
response with the protocol pinned to HTTP/1.0 and a fresh reader over the
stored bytes (`bytes.NewBuffer` of a nil slice reads as empty). -/
def httpResponse (vr : VCRResponse) : HTTPResponse :=
  { status := vr.Status
    statusCode := vr.StatusCode
    proto := protoHTTP10
    protoMajor := 1
    protoMinor := 0
    header := vr.Header
    contentLength := vr.ContentLength
    body := some (vr.Body.getD []) }

/-! ## Episode matcher -/

/-- How a body renders in the mismatch diagnostic: `string(b[:])`, where a
nil slice renders as the empty string. -/
def bodyString (b : Option Bytes) : Bytes := b.getD []

/-- The matcher's fatal outcomes.  `exhausted` is the
"no more episodes" panic; `mismatch` carries the incoming request's
method and URL, the differing field's name, and the expected and actual
values exactly as `panicEpisodeMismatch` formats them. -/
inductive MatchError where
  | exhausted
  | mismatch (reqMethod reqURL field expected actual : Bytes)
deriving DecidableEq, Repr

/-- Method `DefaultEpisodeMatcher.MatchEpisode`: the queue is the not-yet-consumed
episode list; on success the head is consumed and returned with the new
queue. -/
def MatchEpisode (episodes : List Episode) (request : VCRRequest) :
    Except MatchError (Episode × List Episode) :=
  match episodes with
  | [] => .error .exhausted
  | e :: rest =>
    let expected := e.Request
    if expected.Method ≠ request.Method then
      .error (.mismatch request.Method request.URL fieldMethod
        expected.Method request.Method)
    else if expected.URL ≠ request.URL then
      .error (.mismatch request.Method request.URL fieldURL
        expected.URL request.URL)
    else if expected.Body ≠ request.Body then
      .error (.mismatch request.Method request.URL fieldBody
        (bodyString expected.Body) (bodyString request.Body))
    else
      .ok (e, rest)

/-! ## Base64 (the binary-safe text encoding `encoding/json` applies to
`[]byte` fields, standard alphabet with `=` padding) -/

/-- The standard base64 alphabet: sextet value to ASCII code. -/
def b64char (s : Nat) : Nat :=
  if s < 26 then 65 + s
  else if s < 52 then 71 + s
  else if s < 62 then s - 4
  else if s = 62 then 43
  else 47

/-- ASCII code of the padding character. -/
def b64pad : Nat := 61

/-- Inverse alphabet: ASCII code back to sextet value. -/
def b64dec (ch : Nat) : Option Nat :=
  if 65 ≤ ch ∧ ch ≤ 90 then some (ch - 65)
  else if 97 ≤ ch ∧ ch ≤ 122 then some (ch - 71)
  else if 48 ≤ ch ∧ ch ≤ 57 then some (ch + 4)
  else if ch = 43 then some 62
  else if ch = 47 then some 63
  else none

/-- Standard base64 encoding: three bytes become four alphabet characters;
a final group of one or two bytes is padded with `=`. -/
def b64encode : Bytes → Bytes
  | [] => []
  | [a] => [b64char (a / 4), b64char (a % 4 * 16), b64pad, b64pad]
  | [a, b] =>
    [b64char (a / 4), b64char (a % 4 * 16 + b / 16), b64char (b % 16 * 4),
     b64pad]
  | a :: b :: c :: rest =>
    b64char (a / 4) :: b64char (a % 4 * 16 + b / 16) ::
      b64char (b % 16 * 4 + c / 64) :: b64char (c % 64) :: b64encode rest

/-- Standard base64 decoding of a padded encoding: groups of four
characters, the final group possibly carrying one or two `=`. -/
def b64decode : Bytes → Option Bytes
  | [] => some []
  | w :: x :: y :: z :: rest =>
    match b64dec w, b64dec x with
    | some dw, some dx =>
      if y = b64pad then
        if z = b64pad ∧ rest = [] then some [dw * 4 + dx / 16] else none
      else
        match b64dec y with
        | some dy =>
          if z = b64pad then
            if rest = [] then some [dw * 4 + dx / 16, dx % 16 * 16 + dy / 4]
            else none
          else
            match b64dec z with
            | some dz =>
              match b64decode rest with
              | some ds =>
                some ((dw * 4 + dx / 16) :: (dx % 16 * 16 + dy / 4) ::
                  (dy % 4 * 64 + dz) :: ds)
              | none => none
            | none => none
        | none => none
    | _, _ => none
  | _ => none

theorem b64dec_b64char {s : Nat} (h : s < 64) : b64dec (b64char s) = some s := by
  simp only [b64char, b64dec]
  split_ifs <;> simp_all <;> omega

theorem b64char_ne_pad {s : Nat} (h : s < 64) : b64char s ≠ b64pad := by
  simp only [b64char, b64pad]
  split_ifs <;> omega

/-- Base64 round-trip: decoding the encoding of any byte list returns it
exactly. -/
theorem b64decode_b64encode (l : Bytes) (hl : ∀ b ∈ l, b < 256) :
    b64decode (b64encode l) = some l := by
  induction l using b64encode.induct with
  | case1 => rfl
  | case2 a =>
    have ha : a < 256 := hl a (by simp)
    have h1 : a / 4 < 64 := by omega
    have h2 : a % 4 * 16 < 64 := by omega
    simp [b64encode, b64decode, b64dec_b64char h1, b64dec_b64char h2,
      b64char_ne_pad, b64pad]
    omega
  | case3 a b =>
    have ha : a < 256 := hl a (by simp)
    have hb : b < 256 := hl b (by simp)
    have h1 : a / 4 < 64 := by omega
    have h2 : a % 4 * 16 + b / 16 < 64 := by omega
    have h3 : b % 16 * 4 < 64 := by omega
    simp [b64encode, b64decode, b64dec_b64char h1, b64dec_b64char h2,
      b64dec_b64char h3, b64char_ne_pad h3]
    omega
  | case4 a b c rest ih =>
    have ha : a < 256 := hl a (by simp)
    have hb : b < 256 := hl b (by simp)
    have hc : c < 256 := hl c (by simp)
    have h1 : a / 4 < 64 := by omega
    have h2 : a % 4 * 16 + b / 16 < 64 := by omega
    have h3 : b % 16 * 4 + c / 64 < 64 := by omega
    have h4 : c % 64 < 64 := by omega
    have hrest : ∀ x ∈ rest, x < 256 := fun x hx => hl x (by simp [hx])
    simp [b64encode, b64decode, b64dec_b64char h1, b64dec_b64char h2,
      b64dec_b64char h3, b64dec_b64char h4, b64char_ne_pad h3,
      b64char_ne_pad h4, ih hrest]
    omega

/-! ## The structured document written by `json.Marshal`

`encoding/json` on the source's structs: exported fields in declaration
order, `[]byte` as base64 text, `map[string][]string` as an object with
keys in sorted order, `nil` slices and pointers as `null`. -/

/-- A JSON document. Strings carry their byte content. -/
inductive Json where
  | null
  | boolean (b : Bool)
  | num (n : Int)
  | str (s : Bytes)
  | arr (elems : List Json)
  | obj (members : List (Bytes × Json))

/-- ASCII bytes of "Episodes". -/
def keyEpisodes : Bytes := [69, 112, 105, 115, 111, 100, 101, 115]
/-- ASCII bytes of "Gzip". -/
def keyGzip : Bytes := [71, 122, 105, 112]
/-- ASCII bytes of "Request". -/
def keyRequest : Bytes := [82, 101, 113, 117, 101, 115, 116]
/-- ASCII bytes of "Response". -/
def keyResponse : Bytes := [82, 101, 115, 112, 111, 110, 115, 101]
/-- ASCII bytes of "Status". -/
def keyStatus : Bytes := [83, 116, 97, 116, 117, 115]
/-- ASCII bytes of "StatusCode". -/
def keyStatusCode : Bytes := [83, 116, 97, 116, 117, 115, 67, 111, 100, 101]
/-- ASCII bytes of "ContentLength". -/
def keyContentLength : Bytes :=
  [67, 111, 110, 116, 101, 110, 116, 76, 101, 110, 103, 116, 104]
/-- ASCII bytes of "Header". -/
def keyHeader : Bytes := [72, 101, 97, 100, 101, 114]

/-- A `[]byte` field: `nil` marshals to `null`, otherwise to a base64
string. -/
def jsonBytes : Option Bytes → Json
  | none => .null
  | some bs => .str (b64encode bs)

/-- Go string comparison `a < b` would be `lexLt`; this is `a ≤ b`
(bytewise lexicographic). -/
def lexLe : Bytes → Bytes → Bool
  | [], _ => true
  | _ :: _, [] => false
  | a :: as, b :: bs => if a < b then true else if b < a then false else lexLe as bs

/-- Strict bytewise lexicographic order on byte strings (Go `a < b`). -/
def lexLt : Bytes → Bytes → Bool
  | [], [] => false
  | [], _ :: _ => true
  | _ :: _, [] => false
  | a :: as, b :: bs => if a < b then true else if b < a then false else lexLt as bs

theorem lexLe_of_lexLt {a b : Bytes} (h : lexLt a b = true) : lexLe a b = true := by
  induction a generalizing b with
  | nil => cases b <;> rfl
  | cons x xs ih =>
    cases b with
    | nil => simp [lexLt] at h
    | cons y ys =>
      simp only [lexLt, lexLe] at h ⊢
      split_ifs at h ⊢ <;> simp_all

/-- Insert a member into a key-sorted member list. -/
def insertKey (x : Bytes × Json) : List (Bytes × Json) → List (Bytes × Json)
  | [] => [x]
  | y :: ys => if lexLe x.1 y.1 then x :: y :: ys else y :: insertKey x ys

/-- Sort object members by key, as `encoding/json` does for map keys. -/
def sortKeys : List (Bytes × Json) → List (Bytes × Json)
  | [] => []
  | x :: xs => insertKey x (sortKeys xs)

/-- Sorting is the identity on a list whose keys are already strictly
increasing. -/
theorem sortKeys_eq_self (l : List (Bytes × Json))
    (h : List.Chain' (fun p q => lexLt p.1 q.1 = true) l) : sortKeys l = l := by
  induction l with
  | nil => rfl
  | cons x xs ih =>
    rw [List.chain'_cons'] at h
    have hs := ih h.2
    simp only [sortKeys, hs]
    cases xs with
    | nil => rfl
    | cons y ys =>
      have hr : lexLt x.1 y.1 = true := h.1 y rfl
      simp [insertKey, lexLe_of_lexLt hr]

/-- The header map's marshalled form: object with sorted keys, each value
the array of that name's values, in order. -/
def marshalHeader (h : List (Bytes × List Bytes)) : Json :=
  .obj (sortKeys (h.map fun p => (p.1, Json.arr (p.2.map Json.str))))

/-- Struct `VCRRequest` marshalled: fields in declaration order. -/
def marshalRequest (r : VCRRequest) : Json :=
  .obj [(fieldMethod, .str r.Method), (fieldURL, .str r.URL),
        (fieldBody, jsonBytes r.Body)]

/-- Struct `VCRResponse` marshalled: fields in declaration order. -/
def marshalResponse (r : VCRResponse) : Json :=
  .obj [(keyStatus, .str r.Status), (keyStatusCode, .num r.StatusCode),
        (keyContentLength, .num r.ContentLength),
        (keyHeader, marshalHeader r.Header), (fieldBody, jsonBytes r.Body)]

/-- Struct `Episode` marshalled. -/
def marshalEpisode (e : Episode) : Json :=
  .obj [(keyRequest, marshalRequest e.Request),
        (keyResponse, marshalResponse e.Response)]

/-- The `cassette` struct marshalled: only the exported fields `Episodes`
and `Gzip` are persisted (`name` and `episodeMatcher` are unexported). -/
def marshalCassette (eps : List Episode) (gz : Bool) : Json :=
  .obj [(keyEpisodes, .arr (eps.map marshalEpisode)), (keyGzip, .boolean gz)]

/-! ## `json.Unmarshal` on the same shapes -/

/-- First member under a key (marshal output has unique keys). -/
def lookupField : List (Bytes × Json) → Bytes → Option Json
  | [], _ => none
  | (k, v) :: rest, key => if k = key then some v else lookupField rest key

/-- Decode a string field. -/
def decodeStr : Json → Option Bytes
  | .str s => some s
  | _ => none

/-- Decode a numeric field. -/
def decodeNum : Json → Option Int
  | .num n => some n
  | _ => none

/-- Decode a boolean field. -/
def decodeBool : Json → Option Bool
  | .boolean b => some b
  | _ => none

/-- Decode a `[]byte` field: `null` restores a nil slice, a string is
base64-decoded. -/
def decodeBodyField : Json → Option (Option Bytes)
  | .null => some none
  | .str s => (b64decode s).map some
  | _ => none

/-- Decode each element of a JSON list with `f`, failing if any fails. -/
def decodeList (f : Json → Option α) : List Json → Option (List α)
  | [] => some []
  | j :: rest =>
    match f j, decodeList f rest with
    | some a, some as => some (a :: as)
    | _, _ => none

/-- Decode a `[]string` value. -/
def decodeStrList : Json → Option (List Bytes)
  | .arr es => decodeList decodeStr es
  | _ => none

/-- Decode the members of a header object in document order. -/
def decodeHeaderMembers : List (Bytes × Json) → Option (List (Bytes × List Bytes))
  | [] => some []
  | (k, v) :: rest =>
    match decodeStrList v, decodeHeaderMembers rest with
    | some vs, some hs => some ((k, vs) :: hs)
    | _, _ => none

/-- Decode a header map. -/
def decodeHeader : Json → Option (List (Bytes × List Bytes))
  | .obj ms => decodeHeaderMembers ms
  | _ => none

/-- Decode a `VCRRequest`. -/
def decodeRequest (j : Json) : Option VCRRequest :=
  match j with
  | .obj ms =>
    match lookupField ms fieldMethod, lookupField ms fieldURL,
        lookupField ms fieldBody with
    | some jm, some ju, some jb =>
      match decodeStr jm, decodeStr ju, decodeBodyField jb with
      | some m, some u, some b => some { Method := m, URL := u, Body := b }
      | _, _, _ => none
    | _, _, _ => none
  | _ => none

/-- Decode a `VCRResponse`. -/
def decodeResponse (j : Json) : Option VCRResponse :=
  match j with
  | .obj ms =>
    match lookupField ms keyStatus, lookupField ms keyStatusCode,
        lookupField ms keyContentLength, lookupField ms keyHeader,
        lookupField ms fieldBody with
    | some js, some jc, some jl, some jh, some jb =>
      match decodeStr js, decodeNum jc, decodeNum jl, decodeHeader jh,
          decodeBodyField jb with
      | some s, some c, some l, some h, some b =>
        some { Status := s, StatusCode := c, ContentLength := l,
               Header := h, Body := b }
      | _, _, _, _, _ => none
    | _, _, _, _, _ => none
  | _ => none

/-- Decode an `Episode`. -/
def decodeEpisode (j : Json) : Option Episode :=
  match j with
  | .obj ms =>
    match lookupField ms keyRequest, lookupField ms keyResponse with
    | some jq, some jr =>
      match decodeRequest jq, decodeResponse jr with
      | some q, some r => some { Request := q, Response := r }
      | _, _ => none
    | _, _ => none
  | _ => none

/-- Decode the cassette document back into its episode sequence and gzip
flag. -/
def unmarshalCassette (j : Json) : Option (List Episode × Bool) :=
  match j with
  | .obj ms =>
    match lookupField ms keyEpisodes, lookupField ms keyGzip with
    | some je, some jg =>
      match je, decodeBool jg with
      | .arr es, some g =>
        match decodeList decodeEpisode es with
        | some eps => some (eps, g)
        | none => none
      | _, _ => none
    | _, _ => none
  | _ => none

/-! ## Round-trip of the document codec -/

/-- A body is a Go `[]byte`: every element is a byte value. -/
def BodyWF (b : Option Bytes) : Prop := ∀ x ∈ b.getD [], x < 256

instance (b : Option Bytes) : Decidable (BodyWF b) :=
  inferInstanceAs (Decidable (∀ x ∈ b.getD [], x < 256))

/-- Adjacent keys strictly increasing. -/
def headerSortedKeys : List (Bytes × List Bytes) → Bool
  | [] => true
  | [_] => true
  | p :: q :: rest => lexLt p.1 q.1 && headerSortedKeys (q :: rest)

/-- The canonical association-list representation of a Go
`map[string][]string`: keys strictly increasing (hence unique).  A Go map
carries no key order, so this is the canonical representative. -/
def HeaderWF (h : List (Bytes × List Bytes)) : Prop :=
  headerSortedKeys h = true

instance (h : List (Bytes × List Bytes)) : Decidable (HeaderWF h) :=
  inferInstanceAs (Decidable (_ = true))

theorem chain'_of_headerSorted {h : List (Bytes × List Bytes)}
    (hw : HeaderWF h) : List.Chain' (fun p q => lexLt p.1 q.1 = true) h := by
  induction h with
  | nil => exact List.chain'_nil
  | cons p rest ih =>
    cases rest with
    | nil => exact List.chain'_singleton p
    | cons q rest' =>
      rw [HeaderWF, headerSortedKeys, Bool.and_eq_true] at hw
      exact List.Chain'.cons hw.1 (ih hw.2)

/-- An episode built from Go values: bodies are byte slices, the response
header is in the map's canonical form. -/
def EpisodeWF (e : Episode) : Prop :=
  BodyWF e.Request.Body ∧ BodyWF e.Response.Body ∧ HeaderWF e.Response.Header

instance (e : Episode) : Decidable (EpisodeWF e) :=
  inferInstanceAs (Decidable (_ ∧ _ ∧ _))

theorem decodeBodyField_jsonBytes {b : Option Bytes} (h : BodyWF b) :
    decodeBodyField (jsonBytes b) = some b := by
  cases b with
  | none => rfl
  | some bs =>
    simp only [jsonBytes, decodeBodyField]
    rw [b64decode_b64encode bs h]
    rfl

theorem decodeList_map_str (vs : List Bytes) :
    decodeList decodeStr (vs.map Json.str) = some vs := by
  induction vs with
  | nil => rfl
  | cons v rest ih => simp [decodeList, decodeStr, ih]

theorem decodeHeaderMembers_map (h : List (Bytes × List Bytes)) :
    decodeHeaderMembers (h.map fun p => (p.1, Json.arr (p.2.map Json.str))) =
      some h := by
  induction h with
  | nil => rfl
  | cons p rest ih =>
    simp [decodeHeaderMembers, decodeStrList, decodeList_map_str, ih]

theorem decodeHeader_marshalHeader {h : List (Bytes × List Bytes)}
    (hwf : HeaderWF h) : decodeHeader (marshalHeader h) = some h := by
  unfold marshalHeader decodeHeader
  rw [sortKeys_eq_self]
  · exact decodeHeaderMembers_map h
  · rw [List.chain'_map]
    exact chain'_of_headerSorted hwf

theorem decodeRequest_marshalRequest {r : VCRRequest} (h : BodyWF r.Body) :
    decodeRequest (marshalRequest r) = some r := by
  simp [decodeRequest, marshalRequest, lookupField, decodeStr,
    decodeBodyField_jsonBytes h, fieldMethod, fieldURL, fieldBody]

theorem decodeResponse_marshalResponse {r : VCRResponse}
    (hb : BodyWF r.Body) (hh : HeaderWF r.Header) :
    decodeResponse (marshalResponse r) = some r := by
  simp [decodeResponse, marshalResponse, lookupField, decodeStr, decodeNum,
    decodeHeader_marshalHeader hh, decodeBodyField_jsonBytes hb, keyStatus,
    keyStatusCode, keyContentLength, keyHeader, fieldBody]

theorem decodeEpisode_marshalEpisode {e : Episode} (h : EpisodeWF e) :
    decodeEpisode (marshalEpisode e) = some e := by
  obtain ⟨h1, h2, h3⟩ := h
  simp [decodeEpisode, marshalEpisode, lookupField, keyRequest, keyResponse,
    decodeRequest_marshalRequest h1, decodeResponse_marshalResponse h2 h3]

theorem decodeList_map_episode {eps : List Episode}
    (h : ∀ e ∈ eps, EpisodeWF e) :
    decodeList decodeEpisode (eps.map marshalEpisode) = some eps := by
  induction eps with
  | nil => rfl
  | cons e rest ih =>
    have he : EpisodeWF e := h e (by simp)
    have hr : ∀ x ∈ rest, EpisodeWF x := fun x hx => h x (by simp [hx])
    simp [decodeList, decodeEpisode_marshalEpisode he, ih hr]

/-- Serialization round-trip at the document level: marshalling a
cassette's episodes and gzip flag and unmarshalling the document restores
them exactly. -/
theorem unmarshalCassette_marshalCassette (eps : List Episode) (gz : Bool)
    (h : ∀ e ∈ eps, EpisodeWF e) :
    unmarshalCassette (marshalCassette eps gz) = some (eps, gz) := by
  simp [unmarshalCassette, marshalCassette, lookupField, keyEpisodes,
    keyGzip, decodeBool, decodeList_map_episode h]

/-! ## Cassette store and session controller -/

/-- The cassette: the recorded episode sequence and the compression flag.
(The unexported `name` only selects the file path, which the file-system
model abstracts.) -/
structure Cassette where
  Episodes : List Episode
  Gzip : Bool
deriving DecidableEq, Repr

/-- The durable-storage collaborator for the cassette's one target path:
whether `os.Stat` succeeds, whether `ioutil.WriteFile` would succeed, and
the structured content behind the stored bytes. -/
structure FileSystem where
  pathExists : Bool
  writable : Bool
  content : Json

/-- Method `cassette.write`: marshal (plus whitespace-only indentation), ensure
the fixtures directory, write the file; panics when the target path is
unwritable. -/
def cassetteWrite (c : Cassette) (fs : FileSystem) : Except String FileSystem :=
  if fs.writable then
    .ok { fs with pathExists := true,
                  content := marshalCassette c.Episodes c.Gzip }
  else
    .error "httpvcr: cannot write cassette file!"

/-- Method `cassette.read`: read the stored document and unmarshal it into the
cassette; panics when decoding fails. -/
def cassetteRead (c : Cassette) (fs : FileSystem) : Except String Cassette :=
  match unmarshalCassette fs.content with
  | some (eps, gz) => .ok { c with Episodes := eps, Gzip := gz }
  | none => .error "httpvcr: cannot parse json!"

/-- Session modes. -/
inductive Mode where
  | stopped
  | record
  | replay
deriving DecidableEq, Repr

/-- The session controller state the intercept path reads and writes: the
mode, the cassette (whose episode sequence is the matcher's queue during
replay), and the filter map. -/
structure HTTPVCR where
  mode : Mode
  Cassette : Cassette
  FilterMap : FilterMap
deriving DecidableEq, Repr

/-- A failure of the real transport, opaque to this layer. -/
structure NetworkError where
  msg : Bytes
deriving DecidableEq, Repr

/-- What `RoundTrip` can fail with: the real transport's error passed
through unchanged, or a fatal matcher error. -/
inductive VCRError where
  | network (e : NetworkError)
  | matchFailure (e : MatchError)
deriving DecidableEq, Repr

/-- Method `HTTPVCR.Start`: fatal if already started; replay (loading the
cassette) when the cassette file exists, otherwise record. -/
def Start (v : HTTPVCR) (fs : FileSystem) : Except String HTTPVCR :=
  if v.mode ≠ .stopped then .error "httpvcr: session already started!"
  else if fs.pathExists then
    match cassetteRead v.Cassette fs with
    | .ok c => .ok { v with mode := .replay, Cassette := c }
    | .error e => .error e
  else .ok { v with mode := .record }

/-- Method `HTTPVCR.Stop`: no-op when already stopped; writes the cassette when
recording; returns to `stopped`. -/
def Stop (v : HTTPVCR) (fs : FileSystem) :
    Except String (HTTPVCR × FileSystem) :=
  if v.mode = .stopped then .ok (v, fs)
  else
    match (if v.mode = .record then cassetteWrite v.Cassette fs else .ok fs) with
    | .ok fs' => .ok ({ v with mode := .stopped }, fs')
    | .error e => .error e

/-- The live request `RoundTrip` hands to the real transport while
recording: the body-restored request, after the optional caller-supplied
request modifier. -/
def sentRequest (v : HTTPVCR) (modifier : Option (HTTPRequest → HTTPRequest))
    (request : HTTPRequest) : HTTPRequest :=
  match modifier with
  | some f => f (newVCRRequest request v.FilterMap).2
  | none => (newVCRRequest request v.FilterMap).2

/-- Method `HTTPVCR.RoundTrip`, the intercept path.  `transport` is the real
transport collaborator; the result pairs the updated session state with
the outcome.  While replaying, a successful match consumes the queue's
first episode, and an exhausted cassette stops the session. -/
def RoundTrip (v : HTTPVCR)
    (transport : HTTPRequest → Except NetworkError HTTPResponse)
    (modifier : Option (HTTPRequest → HTTPRequest))
    (request : HTTPRequest) : HTTPVCR × Except VCRError HTTPResponse :=
  let vcrReq := (newVCRRequest request v.FilterMap).1
  if v.mode = .stopped then
    (v, match transport (newVCRRequest request v.FilterMap).2 with
        | .ok r => .ok r
        | .error e => .error (.network e))
  else
    if v.mode = .record then
      match transport (sentRequest v modifier request) with
      | .error e => (v, .error (.network e))
      | .ok response =>
        let vcrRes := newVCRResponse response
        let ep : Episode := { Request := vcrReq, Response := vcrRes }
        let v' := { v with
          Cassette := { v.Cassette with
            Episodes := v.Cassette.Episodes ++ [ep] } }
        (v', .ok (httpResponse vcrRes))
    else
      match MatchEpisode v.Cassette.Episodes vcrReq with
      | .error me => (v, .error (.matchFailure me))
      | .ok (e, rest) =>
        let v' := { v with
          Cassette := { v.Cassette with Episodes := rest } }
        let v'' := if rest = [] then { v' with mode := .stopped } else v'
        (v'', .ok (httpResponse e.Response))

/-! ## The persisted file's bytes (`json.Marshal` + `json.Indent`) -/

/-- Decimal digits of a natural number, structurally recursive on a fuel
bound (`n` itself always suffices). -/
def natToBytesAux : Nat → Nat → Bytes
  | 0, n => [48 + n % 10]
  | fuel + 1, n => if n < 10 then [48 + n] else natToBytesAux fuel (n / 10) ++ [48 + n % 10]
termination_by structural fuel _ => fuel

/-- Decimal digits of a natural number. -/
def natToBytes (n : Nat) : Bytes := natToBytesAux n n

/-- Decimal rendering of an integer. -/
def intToBytes (n : Int) : Bytes :=
  if n < 0 then 45 :: natToBytes n.natAbs else natToBytes n.toNat

/-- JSON string escaping for one byte (quote and backslash; the concrete
data checked below contains no control or HTML-escaped characters). -/
def escapeByte (b : Nat) : Bytes :=
  if b = 34 ∨ b = 92 then [92, b] else [b]

/-- A JSON string literal: quoted, escaped content. -/
def quoteBytes (s : Bytes) : Bytes :=
  34 :: (s.flatMap escapeByte ++ [34])

/-- Indentation: two spaces per level, as `cassette.write` requests. -/
def padding (d : Nat) : Bytes := List.replicate (2 * d) 32

mutual

/-- Render a document at nesting depth `d`, in the indented style
`json.Indent(out, data, "", "  ")` produces.  The fuel argument bounds
recursion depth so the mutual definition is structural (any fuel at least
the document's node count renders it in full). -/
def printJson : Nat → Nat → Json → Bytes
  | 0, _, _ => []
  | _ + 1, _, .null => [110, 117, 108, 108]
  | _ + 1, _, .boolean true => [116, 114, 117, 101]
  | _ + 1, _, .boolean false => [102, 97, 108, 115, 101]
  | _ + 1, _, .num n => intToBytes n
  | _ + 1, _, .str s => quoteBytes s
  | _ + 1, _, .arr [] => [91, 93]
  | fuel + 1, d, .arr (e :: es) =>
    91 :: 10 :: (printElems fuel d (e :: es) ++ (10 :: padding d ++ [93]))
  | _ + 1, _, .obj [] => [123, 125]
  | fuel + 1, d, .obj (m :: ms) =>
    123 :: 10 :: (printMembers fuel d (m :: ms) ++ (10 :: padding d ++ [125]))
termination_by structural fuel _ _ => fuel

/-- Render array elements, comma-and-newline separated. -/
def printElems : Nat → Nat → List Json → Bytes
  | 0, _, _ => []
  | _ + 1, _, [] => []
  | fuel + 1, d, [e] => padding (d + 1) ++ printJson fuel (d + 1) e
  | fuel + 1, d, e :: e2 :: es =>
    padding (d + 1) ++ printJson fuel (d + 1) e ++
      (44 :: 10 :: printElems fuel d (e2 :: es))
termination_by structural fuel _ _ => fuel

/-- Render object members, comma-and-newline separated. -/
def printMembers : Nat → Nat → List (Bytes × Json) → Bytes
  | 0, _, _ => []
  | _ + 1, _, [] => []
  | fuel + 1, d, [(k, v)] =>
    padding (d + 1) ++ quoteBytes k ++ (58 :: 32 :: printJson fuel (d + 1) v)
  | fuel + 1, d, (k, v) :: m2 :: ms =>
    padding (d + 1) ++ quoteBytes k ++ (58 :: 32 :: printJson fuel (d + 1) v) ++
      (44 :: 10 :: printMembers fuel d (m2 :: ms))
termination_by structural fuel _ _ => fuel

end

/-- Substring occurrence test on byte strings. -/
def containsSub (needle : Bytes) : Bytes → Bool
  | [] => needle.isEmpty
  | c :: rest => needle.isPrefixOf (c :: rest) || containsSub needle rest

/-! ## Concrete fixtures (from the repository's tests) -/

/-- ASCII bytes of "secret-key". -/
def secretKey : Bytes := [115, 101, 99, 114, 101, 116, 45, 107, 101, 121]
/-- ASCII bytes of "dummy-key". -/
def dummyKey : Bytes := [100, 117, 109, 109, 121, 45, 107, 101, 121]
/-- ASCII bytes of "GET". -/
def asciiGET : Bytes := [71, 69, 84]
/-- ASCII bytes of "POST". -/
def asciiPOST : Bytes := [80, 79, 83, 84]
/-- A test server URL in string form. -/
def testURL : Bytes :=
  [104, 116, 116, 112, 58, 47, 47, 49, 50, 55, 46, 48, 46, 48, 46, 49,
   58, 56, 48, 56, 48, 47]
/-- ASCII bytes of "200 OK". -/
def status200 : Bytes := [50, 48, 48, 32, 79, 75]
/-- ASCII bytes of "Test". -/
def headerTest : Bytes := [84, 101, 115, 116]
/-- ASCII bytes of "yes". -/
def headerYes : Bytes := [121, 101, 115]

/-- The test server's echo response to the filtered request:
body `5:POST:/:'secret-key'`. -/
def testResponse5 : HTTPResponse :=
  { status := status200
    statusCode := 200
    proto := [72, 84, 84, 80, 47, 49, 46, 49]
    protoMajor := 1
    protoMinor := 1
    header := [(headerTest, [headerYes])]
    contentLength := 21
    body := some ([53, 58, 80, 79, 83, 84, 58, 47, 58, 39] ++ secretKey ++ [39]) }

/-- A recording session with the test's filter installed and an empty
cassette. -/
def vRecord : HTTPVCR :=
  { mode := .record
    Cassette := { Episodes := [], Gzip := false }
    FilterMap := [(secretKey, dummyKey)] }

/-- The live request whose body is exactly the secret. -/
def secretRequest : HTTPRequest :=
  { method := asciiPOST, url := testURL, header := [], body := some secretKey }

/-- Session state after recording the secret-bodied exchange. -/
def recordedState : HTTPVCR :=
  (RoundTrip vRecord (fun _ => .ok testResponse5) none secretRequest).1

/-- The storage state after the recording session's stop writes it. -/
def fsPersisted : FileSystem :=
  { pathExists := true, writable := true,
    content := marshalCassette recordedState.Cassette.Episodes false }

/-- A cassette exercising the round-trip edge content: bodies with
newlines and non-UTF8 bytes, a multi-valued header. -/
def rtCassette : Cassette :=
  { Episodes :=
      [{ Request := { Method := asciiPOST, URL := testURL,
                      Body := some [0, 10, 255, 34, 92, 7] }
         Response := { Status := status200, StatusCode := 200,
                       ContentLength := 7,
                       Header := [([65], [[120], [121]]),
                                  (headerTest, [headerYes])],
                       Body := some [1, 2, 3, 10, 0, 255, 254] } },
       { Request := { Method := asciiGET, URL := testURL, Body := none }
         Response := { Status := status200, StatusCode := 200,
                       ContentLength := 0, Header := [], Body := some [] } }]
    Gzip := false }

/-- A request snapshot with no body recorded. -/
def reqNoBody : VCRRequest := { Method := asciiGET, URL := testURL, Body := none }

/-- A request snapshot with a present empty body. -/
def reqEmptyBody : VCRRequest :=
  { Method := asciiGET, URL := testURL, Body := some [] }

/-- A minimal response snapshot. -/
def respOK : VCRResponse :=
  { Status := status200, StatusCode := 200, ContentLength := 0,
    Header := [], Body := none }

/-- An episode whose request carried no body. -/
def epNoBody : Episode := { Request := reqNoBody, Response := respOK }

/-- An episode whose request carried a present empty body. -/
def epEmptyBody : Episode := { Request := reqEmptyBody, Response := respOK }

/-! ## Helper lemmas on the matcher -/

/-- A successful match can only return the queue's head together with its
tail. -/
theorem MatchEpisode_ok_eq {eps : List Episode} {req : VCRRequest}
    {e : Episode} {rest : List Episode}
    (h : MatchEpisode eps req = .ok (e, rest)) : eps = e :: rest := by
  cases eps with
  | nil => simp [MatchEpisode] at h
  | cons a as =>
    simp only [MatchEpisode] at h
    split_ifs at h
    simp only [Except.ok.injEq, Prod.mk.injEq] at h
    rw [h.1, h.2]

/-! ## Claim theorems -/

/-- C1: matching against an empty queue fails with the exhaustion error
regardless of the request; otherwise the incoming request is compared to
the first episode's request in the order method, URL, body, failing with
a mismatch diagnostic naming the first differing field and carrying the
expected and actual values; when all three agree the first episode is
removed from the queue and returned. -/
theorem matchEpisode_ordered_exact (episodes : List Episode)
    (request : VCRRequest) :
    (episodes = [] → MatchEpisode episodes request = .error .exhausted) ∧
    (∀ e rest, episodes = e :: rest →
      (e.Request.Method ≠ request.Method →
        MatchEpisode episodes request =
          .error (.mismatch request.Method request.URL fieldMethod
            e.Request.Method request.Method)) ∧
      (e.Request.Method = request.Method → e.Request.URL ≠ request.URL →
        MatchEpisode episodes request =
          .error (.mismatch request.Method request.URL fieldURL
            e.Request.URL request.URL)) ∧
      (e.Request.Method = request.Method → e.Request.URL = request.URL →
       e.Request.Body ≠ request.Body →
        MatchEpisode episodes request =
          .error (.mismatch request.Method request.URL fieldBody
            (bodyString e.Request.Body) (bodyString request.Body))) ∧
      (e.Request.Method = request.Method → e.Request.URL = request.URL →
       e.Request.Body = request.Body →
        MatchEpisode episodes request = .ok (e, rest))) := by
  refine ⟨fun h => by rw [h]; rfl, fun e rest h => ?_⟩
  subst h
  refine ⟨fun hm => ?_, fun hm hu => ?_, fun hm hu hb => ?_,
    fun hm hu hb => ?_⟩
  · simp [MatchEpisode, hm]
  · simp [MatchEpisode, hm, hu]
  · simp [MatchEpisode, hm, hu, hb]
  · simp [MatchEpisode, hm, hu, hb]

/-- C1 witness: exhaustion on the empty queue, and a successful match
consuming the head. -/
theorem matchEpisode_ordered_exact_witness :
    MatchEpisode [] reqNoBody = .error .exhausted ∧
    MatchEpisode [epNoBody] reqNoBody = .ok (epNoBody, []) := by
  refine ⟨(matchEpisode_ordered_exact [] reqNoBody).1 rfl, ?_⟩
  exact ((matchEpisode_ordered_exact [epNoBody] reqNoBody).2 epNoBody []
    rfl).2.2.2 rfl rfl rfl

/-- C10: body comparison is deep equality of the stored byte sequences,
distinguishing an absent (nil) body from a present empty body: with
method and URL matching, each direction of the nil/empty pair fails with
a Body mismatch whose expected and actual values both render as the empty
string. -/
theorem body_nil_vs_empty_mismatch :
    MatchEpisode [epNoBody] reqEmptyBody =
      .error (.mismatch asciiGET testURL fieldBody [] []) ∧
    MatchEpisode [epEmptyBody] reqNoBody =
      .error (.mismatch asciiGET testURL fieldBody [] []) ∧
    bodyString (some []) = bodyString none ∧
    reqNoBody.Body ≠ reqEmptyBody.Body := by
  refine ⟨?_, ?_, rfl, by decide⟩ <;> rfl

/-- C5: capture ignores header fields entirely, so two live requests equal
in method, URL string, and body bytes produce identical snapshots, and
matching any episode queue treats them identically. -/
theorem header_blind (r1 r2 : HTTPRequest) (fm : FilterMap)
    (hm : r1.method = r2.method) (hu : r1.url = r2.url)
    (hb : r1.body = r2.body) :
    (newVCRRequest r1 fm).1 = (newVCRRequest r2 fm).1 ∧
    ∀ eps, MatchEpisode eps (newVCRRequest r1 fm).1 =
      MatchEpisode eps (newVCRRequest r2 fm).1 := by
  have key : (newVCRRequest r1 fm).1 = (newVCRRequest r2 fm).1 := by
    unfold newVCRRequest
    rw [hb]
    cases r2.body <;> simp [hm, hu]
  exact ⟨key, fun eps => by rw [key]⟩

/-- C5 witness: two concrete requests differing only in headers yield the
same snapshot and the same match outcome. -/
theorem header_blind_witness :
    (newVCRRequest { secretRequest with header := [(headerTest, [headerYes])] }
        [(secretKey, dummyKey)]).1 =
      (newVCRRequest secretRequest [(secretKey, dummyKey)]).1 ∧
    MatchEpisode [epNoBody]
        (newVCRRequest { secretRequest with header := [(headerTest, [headerYes])] }
          [(secretKey, dummyKey)]).1 =
      MatchEpisode [epNoBody]
        (newVCRRequest secretRequest [(secretKey, dummyKey)]).1 := by
  have h := header_blind
    { secretRequest with header := [(headerTest, [headerYes])] }
    secretRequest [(secretKey, dummyKey)] rfl rfl rfl
  exact ⟨h.1, h.2 [epNoBody]⟩

/-- C6: materializing a response snapshot pins the protocol to HTTP/1.0
(string, major 1, minor 0), copies status text, status code, header map
and content length verbatim, and serves the stored body bytes from a
fresh readable stream (a nil stored body reads as empty). -/
theorem httpResponse_materialize (vr : VCRResponse) :
    (httpResponse vr).proto = protoHTTP10 ∧
    (httpResponse vr).protoMajor = 1 ∧
    (httpResponse vr).protoMinor = 0 ∧
    (httpResponse vr).status = vr.Status ∧
    (httpResponse vr).statusCode = vr.StatusCode ∧
    (httpResponse vr).header = vr.Header ∧
    (httpResponse vr).contentLength = vr.ContentLength ∧
    (httpResponse vr).body = some (vr.Body.getD []) :=
  ⟨rfl, rfl, rfl, rfl, rfl, rfl, rfl, rfl⟩

/-- C7: capturing a request with a non-nil body leaves every other field
of the live request unchanged and replaces the body stream with a fresh
stream over exactly the bytes that were read — the unfiltered bytes, even
though the snapshot records the filtered ones. -/
theorem newVCRRequest_preserves_request (request : HTTPRequest)
    (fm : FilterMap) (bs : Bytes) (h : request.body = some bs) :
    (newVCRRequest request fm).2.method = request.method ∧
    (newVCRRequest request fm).2.url = request.url ∧
    (newVCRRequest request fm).2.header = request.header ∧
    (newVCRRequest request fm).2.body = some bs ∧
    (newVCRRequest request fm).1.Body = some (applyFilters fm bs) := by
  simp [newVCRRequest, h]

/-- C7 witness: the secret-bodied request keeps its unfiltered body for
the real call while the snapshot holds the filtered body. -/
theorem newVCRRequest_preserves_request_witness :
    (newVCRRequest secretRequest [(secretKey, dummyKey)]).2.body =
      some secretKey ∧
    (newVCRRequest secretRequest [(secretKey, dummyKey)]).1.Body =
      some (applyFilters [(secretKey, dummyKey)] secretKey) := by
  have h := newVCRRequest_preserves_request secretRequest
    [(secretKey, dummyKey)] secretKey rfl
  exact ⟨h.2.2.2.1, h.2.2.2.2⟩

/-- C3: while replaying, the episode sequence changes only by the matcher
consuming its head: a successful intercept removes exactly the first
episode (the sequence shrinks by one), a failed one leaves it untouched,
and the sequence never grows. -/
theorem roundTrip_replay_consumes (v : HTTPVCR)
    (transport : HTTPRequest → Except NetworkError HTTPResponse)
    (modifier : Option (HTTPRequest → HTTPRequest)) (request : HTTPRequest)
    (h : v.mode = .replay) :
    ((RoundTrip v transport modifier request).1.Cassette.Episodes =
        v.Cassette.Episodes ∨
      (RoundTrip v transport modifier request).1.Cassette.Episodes =
        v.Cassette.Episodes.tail) ∧
    (∀ r, (RoundTrip v transport modifier request).2 = .ok r →
      v.Cassette.Episodes ≠ [] ∧
      (RoundTrip v transport modifier request).1.Cassette.Episodes =
        v.Cassette.Episodes.tail ∧
      (RoundTrip v transport modifier request).1.Cassette.Episodes.length + 1 =
        v.Cassette.Episodes.length) ∧
    (∀ er, (RoundTrip v transport modifier request).2 = .error er →
      (RoundTrip v transport modifier request).1.Cassette.Episodes =
        v.Cassette.Episodes) ∧
    (RoundTrip v transport modifier request).1.Cassette.Episodes.length ≤
      v.Cassette.Episodes.length := by
  unfold RoundTrip
  rw [h]
  simp only [reduceCtorEq, if_false]
  rcases hM : MatchEpisode v.Cassette.Episodes
      (newVCRRequest request v.FilterMap).1 with er | ⟨e, rest⟩
  · simp
  · have hshape := MatchEpisode_ok_eq hM
    rcases hr : decEq rest [] with _ | _ <;>
      simp [hshape, hr] <;> split_ifs <;> simp [hshape]

/-- A replay-mode session holding one episode. -/
def vReplay : HTTPVCR :=
  { mode := .replay, Cassette := { Episodes := [epNoBody], Gzip := false },
    FilterMap := [] }

/-- A transport that always fails (never reached while replaying). -/
def failingTransport : HTTPRequest → Except NetworkError HTTPResponse :=
  fun _ => .error { msg := [120] }

/-- The live request matching `epNoBody`. -/
def liveGET : HTTPRequest :=
  { method := asciiGET, url := testURL, header := [], body := none }

/-- C3 witness: a successful concrete replay consumes exactly the head
episode. -/
theorem roundTrip_replay_consumes_witness :
    (RoundTrip vReplay failingTransport none liveGET).1.Cassette.Episodes =
      vReplay.Cassette.Episodes.tail ∧
    (RoundTrip vReplay failingTransport none liveGET).1.Cassette.Episodes.length
      + 1 = vReplay.Cassette.Episodes.length := by
  have h := roundTrip_replay_consumes vReplay failingTransport none liveGET rfl
  have hok := h.2.1 (httpResponse respOK) rfl
  exact ⟨hok.2.1, hok.2.2⟩

/-- C8: while recording, a failing real-transport call is returned to the
caller as the same network error, unwrapped, with no response, and the
session state — in particular the cassette's episode sequence — is
exactly what it was before the call. -/
theorem roundTrip_record_network_error (v : HTTPVCR)
    (transport : HTTPRequest → Except NetworkError HTTPResponse)
    (modifier : Option (HTTPRequest → HTTPRequest)) (request : HTTPRequest)
    (err : NetworkError) (hm : v.mode = .record)
    (he : transport (sentRequest v modifier request) = .error err) :
    RoundTrip v transport modifier request = (v, .error (.network err)) ∧
    (RoundTrip v transport modifier request).1.Cassette.Episodes =
      v.Cassette.Episodes := by
  unfold RoundTrip
  rw [hm, he]
  exact ⟨rfl, rfl⟩

/-- C8 witness: a concrete failing transport during recording propagates
its error with the state untouched. -/
theorem roundTrip_record_network_error_witness :
    RoundTrip vRecord failingTransport none secretRequest =
      (vRecord, .error (.network { msg := [120] })) :=
  (roundTrip_record_network_error vRecord failingTransport none secretRequest
    { msg := [120] } rfl rfl).1

/-- C2: saving a cassette to writable storage and loading the stored
document back reproduces the episode sequence field for field — bodies
(including newlines and non-UTF8 bytes) exactly, via the binary-safe
base64 text encoding, and with value order within each header name
preserved. -/
theorem cassette_save_load_roundtrip (c : Cassette) (fs : FileSystem)
    (hw : fs.writable = true) (h : ∀ e ∈ c.Episodes, EpisodeWF e) :
    ∃ fs', cassetteWrite c fs = .ok fs' ∧
      ∀ c₀, ∃ c', cassetteRead c₀ fs' = .ok c' ∧
        c'.Episodes = c.Episodes ∧ c'.Gzip = c.Gzip := by
  have hr := unmarshalCassette_marshalCassette c.Episodes c.Gzip h
  refine ⟨⟨true, fs.writable, marshalCassette c.Episodes c.Gzip⟩, ?_,
    fun c₀ => ?_⟩
  · simp [cassetteWrite, hw]
  · exact ⟨{ c₀ with Episodes := c.Episodes, Gzip := c.Gzip },
      by simp [cassetteRead, hr], rfl, rfl⟩

/-- C2 witness: the round trip on a concrete cassette whose bodies hold
newlines and non-UTF8 bytes and whose header carries two values under one
name. -/
theorem cassette_save_load_roundtrip_witness :
    ∃ fs', cassetteWrite rtCassette ⟨false, true, Json.null⟩ = .ok fs' ∧
      ∀ c₀, ∃ c', cassetteRead c₀ fs' = .ok c' ∧
        c'.Episodes = rtCassette.Episodes ∧ c'.Gzip = rtCassette.Gzip :=
  cassette_save_load_roundtrip rtCassette ⟨false, true, Json.null⟩ rfl
    (by decide)

/-- C9: a recording session against a target path that does not yet exist
starts successfully; persisting at stop against unwritable storage fails
with the storage error — the failure surfaces at stop time, not start
time. -/
theorem storage_error_at_stop (v : HTTPVCR) (fs fs₂ : FileSystem)
    (hmode : v.mode = .stopped) (hne : fs.pathExists = false)
    (hw : fs₂.writable = false) :
    (∃ v', Start v fs = .ok v' ∧ v'.mode = .record) ∧
    (∀ v', Start v fs = .ok v' →
      Stop v' fs₂ = .error "httpvcr: cannot write cassette file!") := by
  have hstart : Start v fs = .ok { v with mode := .record } := by
    simp [Start, hmode, hne]
  refine ⟨⟨{ v with mode := .record }, hstart, rfl⟩, fun v' hv' => ?_⟩
  rw [hstart] at hv'
  cases hv'
  simp [Stop, cassetteWrite, hw]

/-- C9 witness: a concrete fresh session and unwritable stop-time storage. -/
theorem storage_error_at_stop_witness :
    (∃ v', Start { mode := .stopped, Cassette := ⟨[], false⟩, FilterMap := [] }
        ⟨false, true, Json.null⟩ = .ok v' ∧ v'.mode = .record) ∧
    (∀ v', Start { mode := .stopped, Cassette := ⟨[], false⟩, FilterMap := [] }
        ⟨false, true, Json.null⟩ = .ok v' →
      Stop v' ⟨false, false, Json.null⟩ =
        .error "httpvcr: cannot write cassette file!") :=
  storage_error_at_stop
    { mode := .stopped, Cassette := ⟨[], false⟩, FilterMap := [] }
    ⟨false, true, Json.null⟩ ⟨false, false, Json.null⟩ rfl rfl rfl

set_option maxRecDepth 10000 in
/-- C4: with the filter map sending "secret-key" to "dummy-key", recording
a request whose body is exactly "secret-key" captures the episode with
the replacement applied (the left-to-right scan of `bytes.Replace`), and
the cassette file persisted at session stop contains no byte-identical
copy of "secret-key" anywhere. -/
theorem secret_absent_from_persisted_file :
    applyFilters vRecord.FilterMap secretKey = dummyKey ∧
    (recordedState.Cassette.Episodes.map fun e => e.Request.Body) =
      [some dummyKey] ∧
    Stop recordedState ⟨false, true, Json.null⟩ =
      .ok ({ recordedState with mode := .stopped }, fsPersisted) ∧
    containsSub secretKey (printJson 1000 0 fsPersisted.content) = false := by
  refine ⟨by decide, by decide, rfl, by decide⟩

end Httpvcr
